import Mathlib

/-!
Shallow embedding of the netmonitor core (src/cmd/netmonitor/main.go).

The Go program keeps one `PingStats` record per monitored host inside a
`Monitor`; the goroutine `monitorHost` applies each ping outcome to that
record while holding the Monitor-wide `sync.RWMutex`, and keeps a
goroutine-local `lastLatency` baseline for the jitter computation.
Floating point (`float64`) is embedded as `ℚ`; `time.Now()` is passed in
as an explicit `now` argument; the ping outcome `(float64, error)` is the
inductive `ProbeOutcome`.
-/

namespace NetMonitor

/-- Embedding of the Go struct `PingStats` (main.go lines 18-30).
`lastSeen` embeds the `time.Time` field as a rational timestamp whose
zero value stands for the Go zero time. -/
structure PingStats where
  host : String
  status : String
  lastSeen : ℚ
  packetsSent : ℕ
  packetsRecv : ℕ
  packetLoss : ℚ
  avgLatency : ℚ
  minLatency : ℚ
  maxLatency : ℚ
  currentLatency : ℚ
  jitter : ℚ
  deriving Repr, DecidableEq

/-- Outcome of one `ping` call: the Go pair `(float64, error)` collapsed
to its two observable cases. -/
inductive ProbeOutcome where
  | success (rtt : ℚ)
  | failure
  deriving Repr, DecidableEq

/-- The per-host record built by `NewMonitor` (main.go lines 48-55):
status "unknown", extrema at the -1 sentinel, all counters zero. -/
def newPingStats (host : String) : PingStats :=
  { host := host,
    status := "unknown",
    lastSeen := 0,
    packetsSent := 0,
    packetsRecv := 0,
    packetLoss := 0,
    avgLatency := 0,
    minLatency := -1,
    maxLatency := -1,
    currentLatency := 0,
    jitter := 0 }

/-- The state carried across iterations of `monitorHost` for one host:
the shared `PingStats` record plus the goroutine-local `lastLatency`
variable (main.go line 115), which starts at 0. -/
structure HostState where
  stats : PingStats
  lastLatency : ℚ
  deriving Repr, DecidableEq

def initHostState (host : String) : HostState :=
  { stats := newPingStats host, lastLatency := 0 }

/-- The packet-loss recomputation at the end of every loop iteration
(main.go lines 158-161): guarded by `PacketsSent > 0`, the subtraction
`PacketsSent - PacketsRecv` is Go `int` subtraction, hence cast-then-
subtract over ℚ. -/
def recomputeLoss (s : PingStats) : PingStats :=
  if 0 < s.packetsSent then
    { s with packetLoss :=
        ((s.packetsSent : ℚ) - (s.packetsRecv : ℚ)) / (s.packetsSent : ℚ) * 100 }
  else s

/-- One iteration of the `monitorHost` loop body (main.go lines 117-163)
applied to the per-host state: increment `PacketsSent`; on failure set
status "down"; on success set status "up", bump `PacketsRecv`, record
`lastSeen` and `currentLatency`, update extrema, the incremental average,
and the jitter EMA guarded by `lastLatency > 0`; finally recompute packet
loss. Each `let` is one Go statement, in source order. -/
def monitorStep (now : ℚ) (st : HostState) (o : ProbeOutcome) : HostState :=
  match o with
  | .failure =>
      { st with stats := (recomputeLoss
          { st.stats with
              packetsSent := st.stats.packetsSent + 1,
              status := "down" }) }
  | .success latency =>
      let sent := st.stats.packetsSent + 1
      let recv := st.stats.packetsRecv + 1
      let minL :=
        if st.stats.minLatency = -1 ∨ latency < st.stats.minLatency then latency
        else st.stats.minLatency
      let maxL :=
        if st.stats.maxLatency < latency then latency
        else st.stats.maxLatency
      let avg :=
        if recv = 1 then latency
        else (st.stats.avgLatency * ((recv : ℚ) - 1) + latency) / (recv : ℚ)
      let jit :=
        if 0 < st.lastLatency then
          let d := latency - st.lastLatency
          let d := if d < 0 then -d else d
          st.stats.jitter * (9 / 10) + d * (1 / 10)
        else st.stats.jitter
      { stats := (recomputeLoss
          { st.stats with
              packetsSent := sent,
              status := "up",
              packetsRecv := recv,
              lastSeen := now,
              currentLatency := latency,
              minLatency := minL,
              maxLatency := maxL,
              avgLatency := avg,
              jitter := jit }),
        lastLatency := latency }

/-- Folding a sequence of timed outcomes from an arbitrary state. -/
def runFrom (st : HostState) (events : List (ℚ × ProbeOutcome)) : HostState :=
  events.foldl (fun st e => monitorStep e.1 st e.2) st

/-- The per-host state after `monitorHost` has processed `events`,
starting from the record `NewMonitor` created. -/
def run (host : String) (events : List (ℚ × ProbeOutcome)) : HostState :=
  runFrom (initHostState host) events

/-- The round-trip times of the successful outcomes of a sequence, in
order. -/
def succRtts (events : List (ℚ × ProbeOutcome)) : List ℚ :=
  events.filterMap fun e =>
    match e.2 with
    | .success r => some r
    | .failure => none

/-- Go map assignment `m.stats[host] = v`, embedded on an association
list: if the key is present its entry is replaced, otherwise the entry
is appended. -/
def mapInsert (m : List (String × PingStats)) (k : String) (v : PingStats) :
    List (String × PingStats) :=
  if m.any (fun p => p.1 == k) then
    m.map (fun p => if p.1 == k then (k, v) else p)
  else m ++ [(k, v)]

/-- The `stats` map built by `NewMonitor` (main.go lines 48-55): one
`m.stats[host] = &PingStats{...}` assignment per element of the
configured host list, in order. -/
def newMonitorStats (hosts : List String) : List (String × PingStats) :=
  hosts.foldl (fun m host => mapInsert m host (newPingStats host)) []

/-- `GetStats` (main.go lines 173-182): one copied record per map
entry. -/
def getStats (m : List (String × PingStats)) : List PingStats :=
  m.map (fun p => p.2)

/-- `Start` (main.go lines 167-171): one `monitorHost` goroutine per
element of the configured host list, duplicates included; each task is
identified by the host string it polls. -/
def startTasks (hosts : List String) : List String := hosts

/-- The lock objects of the program: the `Monitor` struct holds exactly
one `sync.RWMutex` field `mu` (main.go line 37); there is no per-host
lock. -/
inductive LockId where
  | monitorMu
  deriving Repr, DecidableEq

inductive LockMode where
  | read
  | write
  deriving Repr, DecidableEq

structure LockAcq where
  lock : LockId
  mode : LockMode
  deriving Repr, DecidableEq

/-- The locks one iteration of `monitorHost h` acquires around its stats
update: `m.mu.Lock()` (main.go line 120), the Monitor-wide write lock,
whatever the host. -/
def monitorHostLocks ( _host : String) : List LockAcq :=
  [{ lock := LockId.monitorMu, mode := LockMode.write }]

/-- The locks `GetStats` acquires: `m.mu.RLock()` (main.go line 174). -/
def getStatsLocks : List LockAcq :=
  [{ lock := LockId.monitorMu, mode := LockMode.read }]

/-- Two acquisitions conflict when they are on the same lock and at
least one is a write: that is exactly when one can block the other on a
reader/writer lock. -/
def acqConflict (a b : LockAcq) : Bool :=
  a.lock == b.lock && (a.mode == LockMode.write || b.mode == LockMode.write)

/-- One critical section can block another iff some pair of their
acquisitions conflicts. -/
def canBlock (xs ys : List LockAcq) : Bool :=
  xs.any fun a => ys.any fun b => acqConflict a b

/-! ### Projection lemmas for `recomputeLoss` -/

@[simp] lemma recomputeLoss_host (s : PingStats) : (recomputeLoss s).host = s.host := by
  unfold recomputeLoss; split <;> rfl

@[simp] lemma recomputeLoss_status (s : PingStats) : (recomputeLoss s).status = s.status := by
  unfold recomputeLoss; split <;> rfl

@[simp] lemma recomputeLoss_lastSeen (s : PingStats) : (recomputeLoss s).lastSeen = s.lastSeen := by
  unfold recomputeLoss; split <;> rfl

@[simp] lemma recomputeLoss_packetsSent (s : PingStats) :
    (recomputeLoss s).packetsSent = s.packetsSent := by
  unfold recomputeLoss; split <;> rfl

@[simp] lemma recomputeLoss_packetsRecv (s : PingStats) :
    (recomputeLoss s).packetsRecv = s.packetsRecv := by
  unfold recomputeLoss; split <;> rfl

@[simp] lemma recomputeLoss_avgLatency (s : PingStats) :
    (recomputeLoss s).avgLatency = s.avgLatency := by
  unfold recomputeLoss; split <;> rfl

@[simp] lemma recomputeLoss_minLatency (s : PingStats) :
    (recomputeLoss s).minLatency = s.minLatency := by
  unfold recomputeLoss; split <;> rfl

@[simp] lemma recomputeLoss_maxLatency (s : PingStats) :
    (recomputeLoss s).maxLatency = s.maxLatency := by
  unfold recomputeLoss; split <;> rfl

@[simp] lemma recomputeLoss_currentLatency (s : PingStats) :
    (recomputeLoss s).currentLatency = s.currentLatency := by
  unfold recomputeLoss; split <;> rfl

@[simp] lemma recomputeLoss_jitter (s : PingStats) : (recomputeLoss s).jitter = s.jitter := by
  unfold recomputeLoss; split <;> rfl

lemma recomputeLoss_packetLoss_pos (s : PingStats) (hs : 0 < s.packetsSent) :
    (recomputeLoss s).packetLoss =
      ((s.packetsSent : ℚ) - (s.packetsRecv : ℚ)) / (s.packetsSent : ℚ) * 100 := by
  unfold recomputeLoss; rw [if_pos hs]

/-! ### Field lemmas for one `monitorHost` iteration -/

@[simp] lemma monitorStep_packetsSent (now : ℚ) (st : HostState) (o : ProbeOutcome) :
    (monitorStep now st o).stats.packetsSent = st.stats.packetsSent + 1 := by
  cases o <;> simp [monitorStep]

@[simp] lemma monitorStep_failure_status (now : ℚ) (st : HostState) :
    (monitorStep now st ProbeOutcome.failure).stats.status = "down" := by
  simp [monitorStep]

@[simp] lemma monitorStep_failure_packetsRecv (now : ℚ) (st : HostState) :
    (monitorStep now st ProbeOutcome.failure).stats.packetsRecv = st.stats.packetsRecv := by
  simp [monitorStep]

@[simp] lemma monitorStep_failure_minLatency (now : ℚ) (st : HostState) :
    (monitorStep now st ProbeOutcome.failure).stats.minLatency = st.stats.minLatency := by
  simp [monitorStep]

@[simp] lemma monitorStep_failure_maxLatency (now : ℚ) (st : HostState) :
    (monitorStep now st ProbeOutcome.failure).stats.maxLatency = st.stats.maxLatency := by
  simp [monitorStep]

@[simp] lemma monitorStep_failure_avgLatency (now : ℚ) (st : HostState) :
    (monitorStep now st ProbeOutcome.failure).stats.avgLatency = st.stats.avgLatency := by
  simp [monitorStep]

@[simp] lemma monitorStep_failure_currentLatency (now : ℚ) (st : HostState) :
    (monitorStep now st ProbeOutcome.failure).stats.currentLatency =
      st.stats.currentLatency := by
  simp [monitorStep]

@[simp] lemma monitorStep_failure_jitter (now : ℚ) (st : HostState) :
    (monitorStep now st ProbeOutcome.failure).stats.jitter = st.stats.jitter := by
  simp [monitorStep]

@[simp] lemma monitorStep_failure_lastSeen (now : ℚ) (st : HostState) :
    (monitorStep now st ProbeOutcome.failure).stats.lastSeen = st.stats.lastSeen := by
  simp [monitorStep]

@[simp] lemma monitorStep_failure_lastLatency (now : ℚ) (st : HostState) :
    (monitorStep now st ProbeOutcome.failure).lastLatency = st.lastLatency := by
  simp [monitorStep]

@[simp] lemma monitorStep_success_status (now : ℚ) (st : HostState) (r : ℚ) :
    (monitorStep now st (ProbeOutcome.success r)).stats.status = "up" := by
  simp [monitorStep]

@[simp] lemma monitorStep_success_packetsRecv (now : ℚ) (st : HostState) (r : ℚ) :
    (monitorStep now st (ProbeOutcome.success r)).stats.packetsRecv =
      st.stats.packetsRecv + 1 := by
  simp [monitorStep]

@[simp] lemma monitorStep_success_lastSeen (now : ℚ) (st : HostState) (r : ℚ) :
    (monitorStep now st (ProbeOutcome.success r)).stats.lastSeen = now := by
  simp [monitorStep]

@[simp] lemma monitorStep_success_currentLatency (now : ℚ) (st : HostState) (r : ℚ) :
    (monitorStep now st (ProbeOutcome.success r)).stats.currentLatency = r := by
  simp [monitorStep]

@[simp] lemma monitorStep_success_lastLatency (now : ℚ) (st : HostState) (r : ℚ) :
    (monitorStep now st (ProbeOutcome.success r)).lastLatency = r := by
  simp [monitorStep]

lemma monitorStep_success_minLatency (now : ℚ) (st : HostState) (r : ℚ) :
    (monitorStep now st (ProbeOutcome.success r)).stats.minLatency =
      if st.stats.minLatency = -1 ∨ r < st.stats.minLatency then r
      else st.stats.minLatency := by
  simp [monitorStep]

lemma monitorStep_success_maxLatency (now : ℚ) (st : HostState) (r : ℚ) :
    (monitorStep now st (ProbeOutcome.success r)).stats.maxLatency =
      if st.stats.maxLatency < r then r else st.stats.maxLatency := by
  simp [monitorStep]

lemma monitorStep_success_avgLatency (now : ℚ) (st : HostState) (r : ℚ) :
    (monitorStep now st (ProbeOutcome.success r)).stats.avgLatency =
      if st.stats.packetsRecv = 0 then r
      else (st.stats.avgLatency * (st.stats.packetsRecv : ℚ) + r) /
        ((st.stats.packetsRecv : ℚ) + 1) := by
  simp only [monitorStep, recomputeLoss_avgLatency]
  by_cases h0 : st.stats.packetsRecv = 0
  · simp [h0]
  · have h1 : st.stats.packetsRecv + 1 ≠ 1 := by omega
    simp only [h1, if_false, h0]
    push_cast
    ring_nf

lemma monitorStep_success_jitter (now : ℚ) (st : HostState) (r : ℚ) :
    (monitorStep now st (ProbeOutcome.success r)).stats.jitter =
      if 0 < st.lastLatency then
        st.stats.jitter * (9 / 10) + |r - st.lastLatency| * (1 / 10)
      else st.stats.jitter := by
  simp only [monitorStep, recomputeLoss_jitter]
  by_cases hl : 0 < st.lastLatency
  · rw [if_pos hl, if_pos hl]
    by_cases hd : r - st.lastLatency < 0
    · rw [if_pos hd, abs_of_neg hd]
    · rw [if_neg hd, abs_of_nonneg (le_of_not_lt hd)]
  · rw [if_neg hl, if_neg hl]

lemma monitorStep_packetLoss (now : ℚ) (st : HostState) (o : ProbeOutcome) :
    (monitorStep now st o).stats.packetLoss =
      (((monitorStep now st o).stats.packetsSent : ℚ) -
          ((monitorStep now st o).stats.packetsRecv : ℚ)) /
        ((monitorStep now st o).stats.packetsSent : ℚ) * 100 := by
  cases o <;>
    · simp only [monitorStep]
      rw [recomputeLoss_packetLoss_pos _ (by simp)]
      simp

/-! ### Lemmas about whole outcome sequences -/

@[simp] lemma runFrom_nil (st : HostState) : runFrom st [] = st := rfl

lemma runFrom_cons (st : HostState) (e : ℚ × ProbeOutcome) (es : List (ℚ × ProbeOutcome)) :
    runFrom st (e :: es) = runFrom (monitorStep e.1 st e.2) es := rfl

@[simp] lemma run_nil (host : String) : run host [] = initHostState host := rfl

lemma run_append_singleton (host : String) (es : List (ℚ × ProbeOutcome))
    (e : ℚ × ProbeOutcome) :
    run host (es ++ [e]) = monitorStep e.1 (run host es) e.2 := by
  simp [run, runFrom, List.foldl_append]

@[simp] lemma succRtts_nil : succRtts [] = [] := rfl

lemma succRtts_append (es fs : List (ℚ × ProbeOutcome)) :
    succRtts (es ++ fs) = succRtts es ++ succRtts fs := by
  simp [succRtts, List.filterMap_append]

@[simp] lemma succRtts_singleton_success (t r : ℚ) :
    succRtts [(t, ProbeOutcome.success r)] = [r] := rfl

@[simp] lemma succRtts_singleton_failure (t : ℚ) :
    succRtts [(t, ProbeOutcome.failure)] = [] := rfl

lemma run_packetsSent (host : String) (events : List (ℚ × ProbeOutcome)) :
    (run host events).stats.packetsSent = events.length := by
  induction events using List.reverseRecOn with
  | nil => rfl
  | append_singleton es e ih =>
      rw [run_append_singleton, monitorStep_packetsSent, ih]
      simp

lemma run_packetsRecv (host : String) (events : List (ℚ × ProbeOutcome)) :
    (run host events).stats.packetsRecv = (succRtts events).length := by
  induction events using List.reverseRecOn with
  | nil => rfl
  | append_singleton es e ih =>
      obtain ⟨t, o⟩ := e
      rw [run_append_singleton, succRtts_append]
      cases o with
      | failure => simpa using ih
      | success r => simpa using ih

lemma run_avgLatency_mul (host : String) (events : List (ℚ × ProbeOutcome)) :
    (run host events).stats.avgLatency * ((succRtts events).length : ℚ) =
      (succRtts events).sum := by
  induction events using List.reverseRecOn with
  | nil => simp [run, runFrom, initHostState, newPingStats]
  | append_singleton es e ih =>
      obtain ⟨t, o⟩ := e
      rw [run_append_singleton, succRtts_append]
      cases o with
      | failure => simpa using ih
      | success r =>
          have hrecv := run_packetsRecv host es
          rw [monitorStep_success_avgLatency, hrecv]
          have hL : (((succRtts es ++ [r]).length : ℚ)) = ((succRtts es).length : ℚ) + 1 := by
            push_cast [List.length_append, List.length_singleton]
            ring
          have hS : (succRtts es ++ [r]).sum = (succRtts es).sum + r := by
            simp
          rw [succRtts_singleton_success] at *
          rw [hL, hS]
          by_cases hn : (succRtts es).length = 0
          · have hsum : (succRtts es).sum = 0 := by
              rw [List.length_eq_zero] at hn
              simp [hn]
            simp [hn, hsum]
          · have hne : ((succRtts es).length : ℚ) + 1 ≠ 0 := by
              positivity
            rw [if_neg hn, div_mul_cancel₀ _ hne]
            linear_combination ih

lemma monitorStep_success_min_le (now : ℚ) (st : HostState) (r : ℚ) :
    (monitorStep now st (ProbeOutcome.success r)).stats.minLatency ≤ r := by
  rw [monitorStep_success_minLatency]
  split
  · exact le_refl r
  · next hc =>
      push_neg at hc
      exact le_of_not_lt (by simpa using hc.2)

lemma monitorStep_success_le_max (now : ℚ) (st : HostState) (r : ℚ) :
    r ≤ (monitorStep now st (ProbeOutcome.success r)).stats.maxLatency := by
  rw [monitorStep_success_maxLatency]
  split
  · exact le_refl r
  · next hc => exact le_of_not_lt hc

/-- During a Down period (failures only) the last known `currentLatency`
is retained. -/
lemma runFrom_failures_currentLatency (events : List (ℚ × ProbeOutcome)) :
    ∀ st : HostState, (∀ e ∈ events, e.2 = ProbeOutcome.failure) →
      (runFrom st events).stats.currentLatency = st.stats.currentLatency := by
  induction events with
  | nil => intro st _; rfl
  | cons e es ih =>
      intro st hall
      obtain ⟨t, o⟩ := e
      have ho : o = ProbeOutcome.failure := hall (t, o) (List.mem_cons_self _ _)
      subst ho
      rw [runFrom_cons]
      rw [ih _ fun x hx => hall x (List.mem_cons_of_mem _ hx)]
      exact monitorStep_failure_currentLatency t st

/-! ### Lemmas about the registry map -/

lemma mapInsert_keys (m : List (String × PingStats)) (k : String) (v : PingStats) :
    (mapInsert m k v).map Prod.fst =
      if k ∈ m.map Prod.fst then m.map Prod.fst else m.map Prod.fst ++ [k] := by
  unfold mapInsert
  have hany : (m.any fun p => p.1 == k) = true ↔ k ∈ m.map Prod.fst := by
    simp [List.any_eq_true, List.mem_map, beq_iff_eq]
  by_cases hk : k ∈ m.map Prod.fst
  · rw [if_pos (hany.mpr hk), if_pos hk, List.map_map]
    apply List.map_congr_left
    intro p _
    simp only [Function.comp_apply]
    split
    · next hpk => exact (beq_iff_eq.mp hpk).symm
    · rfl
  · rw [if_neg (fun hc => hk (hany.mp hc)), if_neg hk]
    simp

lemma foldl_mapInsert_keys (hosts : List String) :
    ∀ m : List (String × PingStats),
      (∀ x, x ∈ (hosts.foldl (fun m host => mapInsert m host (newPingStats host)) m).map
          Prod.fst ↔ x ∈ m.map Prod.fst ∨ x ∈ hosts) ∧
      ((m.map Prod.fst).Nodup →
        ((hosts.foldl (fun m host => mapInsert m host (newPingStats host)) m).map
          Prod.fst).Nodup) := by
  induction hosts with
  | nil => intro m; simp
  | cons h hs ih =>
      intro m
      rw [List.foldl_cons]
      obtain ⟨ihmem, ihnodup⟩ := ih (mapInsert m h (newPingStats h))
      constructor
      · intro x
        rw [ihmem x, mapInsert_keys]
        by_cases hk : h ∈ m.map Prod.fst
        · rw [if_pos hk]
          simp only [List.mem_cons]
          constructor
          · rintro (hx | hx)
            · exact Or.inl hx
            · exact Or.inr (Or.inr hx)
          · rintro (hx | rfl | hx)
            · exact Or.inl hx
            · exact Or.inl hk
            · exact Or.inr hx
        · rw [if_neg hk]
          simp only [List.mem_append, List.mem_singleton, List.mem_cons]
          tauto
      · intro hnd
        apply ihnodup
        rw [mapInsert_keys]
        by_cases hk : h ∈ m.map Prod.fst
        · rwa [if_pos hk]
        · rw [if_neg hk]
          exact List.Nodup.append hnd (List.nodup_singleton h)
            (by simpa [List.disjoint_singleton] using hk)

lemma newMonitorStats_keys_nodup (hosts : List String) :
    ((newMonitorStats hosts).map Prod.fst).Nodup :=
  (foldl_mapInsert_keys hosts []).2 (by simp)

lemma newMonitorStats_keys_mem (hosts : List String) (x : String) :
    x ∈ (newMonitorStats hosts).map Prod.fst ↔ x ∈ hosts := by
  have hm := ((foldl_mapInsert_keys hosts []).1 x)
  simpa [newMonitorStats] using hm

lemma newMonitorStats_length (hosts : List String) :
    (newMonitorStats hosts).length = hosts.dedup.length := by
  have h1 := newMonitorStats_keys_nodup hosts
  have hfin : ((newMonitorStats hosts).map Prod.fst).toFinset = hosts.dedup.toFinset := by
    ext x
    simp only [List.mem_toFinset, List.mem_dedup]
    exact newMonitorStats_keys_mem hosts x
  have h2 : ((newMonitorStats hosts).map Prod.fst).length =
      ((newMonitorStats hosts).map Prod.fst).toFinset.card :=
    (List.toFinset_card_of_nodup h1).symm
  have h3 : hosts.dedup.toFinset.card = hosts.dedup.length :=
    List.toFinset_card_of_nodup hosts.nodup_dedup
  calc (newMonitorStats hosts).length
      = ((newMonitorStats hosts).map Prod.fst).length := (List.length_map _ _).symm
    _ = ((newMonitorStats hosts).map Prod.fst).toFinset.card := h2
    _ = hosts.dedup.toFinset.card := by rw [hfin]
    _ = hosts.dedup.length := h3

/-- Invariant behind claim C6: once both extrema have moved off the -1
sentinel, the current latency lies between them. -/
lemma run_min_current_max (host : String) (events : List (ℚ × ProbeOutcome)) :
    (run host events).stats.minLatency ≠ -1 → (run host events).stats.maxLatency ≠ -1 →
      (run host events).stats.minLatency ≤ (run host events).stats.currentLatency ∧
      (run host events).stats.currentLatency ≤ (run host events).stats.maxLatency := by
  induction events using List.reverseRecOn with
  | nil =>
      intro hmin _
      exact absurd rfl hmin
  | append_singleton es e ih =>
      obtain ⟨t, o⟩ := e
      rw [run_append_singleton]
      cases o with
      | failure =>
          simp only [monitorStep_failure_minLatency, monitorStep_failure_maxLatency,
            monitorStep_failure_currentLatency]
          exact ih
      | success r =>
          intro _ _
          rw [monitorStep_success_currentLatency]
          exact ⟨monitorStep_success_min_le t _ r, monitorStep_success_le_max t _ r⟩

/-! ### The claims -/

/-- Claim C1, counterexample: applying a Failure does NOT reset the
previous-latency baseline. After Success 40 then Failure, the baseline
is still 40, and the first Success after the Failure (rtt 60) performs a
jitter update against that stale pre-failure sample, giving jitter 2
instead of the unchanged 0 the claim requires. -/
theorem C1_counterexample :
    (run "h" [(0, ProbeOutcome.success 40), (0, ProbeOutcome.failure)]).stats.jitter = 0 ∧
    (run "h" [(0, ProbeOutcome.success 40), (0, ProbeOutcome.failure)]).lastLatency = 40 ∧
    (run "h" [(0, ProbeOutcome.success 40), (0, ProbeOutcome.failure),
      (0, ProbeOutcome.success 60)]).stats.jitter = 2 := by
  refine ⟨?_, ?_, ?_⟩ <;>
    norm_num [run, runFrom, monitorStep, recomputeLoss, initHostState, newPingStats]

/-- Claim C1, amended: applying a Failure leaves the previous-latency
baseline unchanged, so the first Success after a Failure computes its
jitter delta against the pre-failure latency (here 0.9 times 0 plus 0.1
times the absolute difference of 60 and 40, that is 2); no second
consecutive Success is needed to re-enable jitter updates. -/
theorem C1_amended_baseline_persists (now : ℚ) (st : HostState) :
    (monitorStep now st ProbeOutcome.failure).lastLatency = st.lastLatency ∧
    (run "h" [(0, ProbeOutcome.success 40), (0, ProbeOutcome.failure),
        (0, ProbeOutcome.success 60)]).stats.jitter =
      0 * (9 / 10) + |(60 : ℚ) - 40| * (1 / 10) := by
  refine ⟨monitorStep_failure_lastLatency now st, ?_⟩
  norm_num [run, runFrom, monitorStep, recomputeLoss, initHostState, newPingStats]

/-- Claim C2, counterexample: the program has exactly one Monitor-wide
reader/writer lock, and the critical section of monitorHost for host a
conflicts with the one for the distinct host b (and with GetStats), so a
write to one host can block accesses to another. -/
theorem C2_counterexample :
    ("a" : String) ≠ "b" ∧
    canBlock (monitorHostLocks "a") (monitorHostLocks "b") = true ∧
    canBlock (monitorHostLocks "a") getStatsLocks = true := by
  exact ⟨by decide, rfl, rfl⟩

/-- Claim C2, amended: every host shares the single Monitor-wide RWMutex
mu; each monitorHost update takes its write lock and GetStats its read
lock, so a write to one host can block reads and writes for every
host. -/
theorem C2_amended_global_lock (h1 h2 : String) :
    monitorHostLocks h1 = [{ lock := LockId.monitorMu, mode := LockMode.write }] ∧
    getStatsLocks = [{ lock := LockId.monitorMu, mode := LockMode.read }] ∧
    canBlock (monitorHostLocks h1) (monitorHostLocks h2) = true ∧
    canBlock (monitorHostLocks h1) getStatsLocks = true :=
  ⟨rfl, rfl, rfl, rfl⟩

/-- Claim C3: for every sequence of probe outcomes with at least one
success, the incrementally maintained avgLatency equals the arithmetic
mean of all successful rtt values seen so far. -/
theorem C3_avg_is_mean (host : String) (events : List (ℚ × ProbeOutcome))
    (hs : succRtts events ≠ []) :
    (run host events).stats.avgLatency =
      (succRtts events).sum / ((succRtts events).length : ℚ) := by
  have hlen : (succRtts events).length ≠ 0 := fun hc => hs (List.length_eq_zero.mp hc)
  have hne : ((succRtts events).length : ℚ) ≠ 0 := Nat.cast_ne_zero.mpr hlen
  rw [eq_div_iff hne]
  exact run_avgLatency_mul host events

theorem C3_witness :
    (run "h" [(0, ProbeOutcome.success 30), (0, ProbeOutcome.failure),
      (0, ProbeOutcome.success 50)]).stats.avgLatency = 40 := by
  rw [C3_avg_is_mean "h" _ (by simp [succRtts])]
  norm_num [succRtts, List.filterMap_cons]

/-- Claim C4: after every Apply the packet loss equals
(sent - received) / sent times 100 exactly, sent is then positive, and
while sent is 0 (before the first probe) the packet loss is 0. -/
theorem C4_packetLoss_formula (host : String) (events : List (ℚ × ProbeOutcome)) :
    ((run host events).stats.packetsSent = 0 → (run host events).stats.packetLoss = 0) ∧
    (events ≠ [] → 0 < (run host events).stats.packetsSent) ∧
    (events ≠ [] →
      (run host events).stats.packetLoss =
        (((run host events).stats.packetsSent : ℚ) -
            ((run host events).stats.packetsRecv : ℚ)) /
          ((run host events).stats.packetsSent : ℚ) * 100) := by
  refine ⟨?_, ?_, ?_⟩
  · intro h0
    rw [run_packetsSent, List.length_eq_zero] at h0
    subst h0
    rfl
  · intro hne
    rw [run_packetsSent]
    exact List.length_pos.mpr hne
  · intro hne
    rcases List.eq_nil_or_concat events with rfl | ⟨es, e, rfl⟩
    · exact absurd rfl hne
    · rw [List.concat_eq_append, run_append_singleton]
      exact monitorStep_packetLoss e.1 (run host es) e.2

theorem C4_witness :
    (run "h" [(0, ProbeOutcome.failure)]).stats.packetLoss = 100 := by
  have h := (C4_packetLoss_formula "h" [(0, ProbeOutcome.failure)]).2.2 (by simp)
  rw [h, run_packetsSent, run_packetsRecv]
  norm_num [succRtts]

/-- Claim C5: packetsReceived never exceeds packetsSent after any
sequence of applies; each apply increments packetsSent unconditionally
and increments packetsReceived exactly on a success. -/
theorem C5_recv_le_sent (host : String) (events : List (ℚ × ProbeOutcome)) :
    (run host events).stats.packetsRecv ≤ (run host events).stats.packetsSent ∧
    (∀ now st o, (monitorStep now st o).stats.packetsSent = st.stats.packetsSent + 1) ∧
    (∀ now st r, (monitorStep now st (ProbeOutcome.success r)).stats.packetsRecv =
      st.stats.packetsRecv + 1) ∧
    (∀ now st, (monitorStep now st ProbeOutcome.failure).stats.packetsRecv =
      st.stats.packetsRecv) := by
  refine ⟨?_, monitorStep_packetsSent, monitorStep_success_packetsRecv,
    monitorStep_failure_packetsRecv⟩
  rw [run_packetsSent, run_packetsRecv]
  simpa [succRtts] using List.length_filterMap_le _ events

/-- Claim C6: whenever both extrema are off the -1 sentinel the current
latency lies between minLatency and maxLatency, and immediately after
applying any Success the applied rtt lies between the updated
extrema. -/
theorem C6_min_current_max (host : String) (events : List (ℚ × ProbeOutcome)) :
    ((run host events).stats.minLatency ≠ -1 → (run host events).stats.maxLatency ≠ -1 →
      (run host events).stats.minLatency ≤ (run host events).stats.currentLatency ∧
      (run host events).stats.currentLatency ≤ (run host events).stats.maxLatency) ∧
    (∀ now r,
      (monitorStep now (run host events) (ProbeOutcome.success r)).stats.minLatency ≤ r ∧
      r ≤ (monitorStep now (run host events) (ProbeOutcome.success r)).stats.maxLatency) :=
  ⟨run_min_current_max host events, fun now r =>
    ⟨monitorStep_success_min_le now _ r, monitorStep_success_le_max now _ r⟩⟩

theorem C6_witness :
    (run "h" [(0, ProbeOutcome.success 30), (0, ProbeOutcome.success 50)]).stats.minLatency ≤
      (run "h" [(0, ProbeOutcome.success 30), (0, ProbeOutcome.success 50)]).stats.currentLatency ∧
    (run "h" [(0, ProbeOutcome.success 30), (0, ProbeOutcome.success 50)]).stats.currentLatency ≤
      (run "h" [(0, ProbeOutcome.success 30), (0, ProbeOutcome.success 50)]).stats.maxLatency :=
  (C6_min_current_max "h" [(0, ProbeOutcome.success 30), (0, ProbeOutcome.success 50)]).1
    (by norm_num [run, runFrom, monitorStep, recomputeLoss, initHostState, newPingStats])
    (by norm_num [run, runFrom, monitorStep, recomputeLoss, initHostState, newPingStats])

/-- Claim C7: applying a Failure changes only packetsSent, status and
the recomputed packet loss; every latency and jitter field, lastSeen and
packetsReceived are untouched, and currentLatency keeps its last known
value across any run of consecutive failures. -/
theorem C7_failure_frame (now : ℚ) (st : HostState) (events : List (ℚ × ProbeOutcome)) :
    (monitorStep now st ProbeOutcome.failure).stats.status = "down" ∧
    (monitorStep now st ProbeOutcome.failure).stats.packetsSent = st.stats.packetsSent + 1 ∧
    (monitorStep now st ProbeOutcome.failure).stats.packetsRecv = st.stats.packetsRecv ∧
    (monitorStep now st ProbeOutcome.failure).stats.minLatency = st.stats.minLatency ∧
    (monitorStep now st ProbeOutcome.failure).stats.maxLatency = st.stats.maxLatency ∧
    (monitorStep now st ProbeOutcome.failure).stats.avgLatency = st.stats.avgLatency ∧
    (monitorStep now st ProbeOutcome.failure).stats.currentLatency = st.stats.currentLatency ∧
    (monitorStep now st ProbeOutcome.failure).stats.jitter = st.stats.jitter ∧
    (monitorStep now st ProbeOutcome.failure).stats.lastSeen = st.stats.lastSeen ∧
    ((∀ e ∈ events, e.2 = ProbeOutcome.failure) →
      (runFrom st events).stats.currentLatency = st.stats.currentLatency) :=
  ⟨monitorStep_failure_status now st, monitorStep_packetsSent now st _,
    monitorStep_failure_packetsRecv now st, monitorStep_failure_minLatency now st,
    monitorStep_failure_maxLatency now st, monitorStep_failure_avgLatency now st,
    monitorStep_failure_currentLatency now st, monitorStep_failure_jitter now st,
    monitorStep_failure_lastSeen now st, runFrom_failures_currentLatency events st⟩

theorem C7_witness :
    (runFrom (run "h" [(0, ProbeOutcome.success 40)])
        [(1, ProbeOutcome.failure), (2, ProbeOutcome.failure)]).stats.currentLatency =
      (run "h" [(0, ProbeOutcome.success 40)]).stats.currentLatency :=
  (C7_failure_frame 0 (run "h" [(0, ProbeOutcome.success 40)])
      [(1, ProbeOutcome.failure), (2, ProbeOutcome.failure)]).2.2.2.2.2.2.2.2.2
    (by intro e he; fin_cases he <;> rfl)

/-- Claim C8, counterexample: after a single success with rtt 0 a
previous successful latency exists (packetsReceived is 1), yet applying
Success 60 leaves jitter at 0 because the code guards the update on
lastLatency being strictly positive, while the claimed update formula
would give 6. -/
theorem C8_counterexample :
    (run "h" [(0, ProbeOutcome.success 0)]).stats.packetsRecv = 1 ∧
    (run "h" [(0, ProbeOutcome.success 0)]).lastLatency = 0 ∧
    (run "h" [(0, ProbeOutcome.success 0), (0, ProbeOutcome.success 60)]).stats.jitter = 0 ∧
    (run "h" [(0, ProbeOutcome.success 0)]).stats.jitter * (9 / 10) +
      |(60 : ℚ) - (run "h" [(0, ProbeOutcome.success 0)]).lastLatency| * (1 / 10) = 6 := by
  refine ⟨?_, ?_, ?_, ?_⟩ <;>
    norm_num [run, runFrom, monitorStep, recomputeLoss, initHostState, newPingStats]

/-- Claim C8, amended: jitter is updated by the 0.9 / 0.1 exponential
moving average of the absolute latency difference exactly when the
stored previous latency is strictly positive (not merely existent), and
the new rtt always becomes the stored baseline; after one success jitter
is untouched at 0, and after successes 40 then 60 jitter equals 2. -/
theorem C8_amended_jitter (now : ℚ) (st : HostState) (rtt : ℚ) :
    (0 < st.lastLatency →
      (monitorStep now st (ProbeOutcome.success rtt)).stats.jitter =
        st.stats.jitter * (9 / 10) + |rtt - st.lastLatency| * (1 / 10)) ∧
    (st.lastLatency ≤ 0 →
      (monitorStep now st (ProbeOutcome.success rtt)).stats.jitter = st.stats.jitter) ∧
    (monitorStep now st (ProbeOutcome.success rtt)).lastLatency = rtt ∧
    (run "h" [(0, ProbeOutcome.success 40)]).stats.jitter = 0 ∧
    (run "h" [(0, ProbeOutcome.success 40), (0, ProbeOutcome.success 60)]).stats.jitter = 2 := by
  refine ⟨?_, ?_, monitorStep_success_lastLatency now st rtt, ?_, ?_⟩
  · intro hl
    rw [monitorStep_success_jitter, if_pos hl]
  · intro hl
    rw [monitorStep_success_jitter, if_neg (not_lt.mpr hl)]
  · norm_num [run, runFrom, monitorStep, recomputeLoss, initHostState, newPingStats]
  · norm_num [run, runFrom, monitorStep, recomputeLoss, initHostState, newPingStats]

theorem C8_witness :
    (monitorStep 0 (run "h" [(0, ProbeOutcome.success 40)])
        (ProbeOutcome.success 60)).stats.jitter =
      (run "h" [(0, ProbeOutcome.success 40)]).stats.jitter * (9 / 10) +
        |(60 : ℚ) - (run "h" [(0, ProbeOutcome.success 40)]).lastLatency| * (1 / 10) :=
  (C8_amended_jitter 0 (run "h" [(0, ProbeOutcome.success 40)]) 60).1
    (by norm_num [run, runFrom, monitorStep, recomputeLoss, initHostState, newPingStats])

/-- Claim C9: a freshly created host record reports status unknown with
both extrema at the -1 sentinel and packet loss 0; every successful
apply sets status up and every failed apply sets status down, so the
status is unknown exactly as long as no outcome has been applied. -/
theorem C9_status_lifecycle (host : String) (events : List (ℚ × ProbeOutcome)) :
    (initHostState host).stats.status = "unknown" ∧
    (initHostState host).stats.minLatency = -1 ∧
    (initHostState host).stats.maxLatency = -1 ∧
    (initHostState host).stats.packetLoss = 0 ∧
    (∀ now st r, (monitorStep now st (ProbeOutcome.success r)).stats.status = "up") ∧
    (∀ now st, (monitorStep now st ProbeOutcome.failure).stats.status = "down") ∧
    ((run host events).stats.status = "unknown" ↔ events = []) := by
  refine ⟨rfl, rfl, rfl, rfl, monitorStep_success_status, monitorStep_failure_status, ?_⟩
  induction events using List.reverseRecOn with
  | nil => simp [initHostState, newPingStats]
  | append_singleton es e _ =>
      obtain ⟨t, o⟩ := e
      rw [run_append_singleton]
      constructor
      · intro hc
        cases o with
        | failure =>
            rw [monitorStep_failure_status] at hc
            exact absurd hc (by decide)
        | success r =>
            rw [monitorStep_success_status] at hc
            exact absurd hc (by decide)
      · intro hc
        exact absurd hc (by simp)

theorem C9_witness :
    (run "h" [(0, ProbeOutcome.failure)]).stats.status ≠ "unknown" := by
  intro hc
  exact List.cons_ne_nil _ _
    (((C9_status_lifecycle "h" [(0, ProbeOutcome.failure)]).2.2.2.2.2.2).mp hc)

/-- Claim C10: the startup registry holds exactly one entry per distinct
configured host string (its key list is duplicate-free and has the same
members as the configured list, so the snapshot length is the number of
distinct hosts), while Start launches one polling task per configured
list entry, duplicates included, so a duplicated host gets several
concurrent writers to its single entry. -/
theorem C10_registry_dedup (hosts : List String) :
    ((newMonitorStats hosts).map Prod.fst).Nodup ∧
    (∀ x, x ∈ (newMonitorStats hosts).map Prod.fst ↔ x ∈ hosts) ∧
    (getStats (newMonitorStats hosts)).length = hosts.dedup.length ∧
    startTasks hosts = hosts ∧
    (newMonitorStats ["a", "a"]).length = 1 ∧
    (startTasks ["a", "a"]).length = 2 ∧
    (startTasks ["a", "a"]).count "a" = 2 := by
  refine ⟨newMonitorStats_keys_nodup hosts, newMonitorStats_keys_mem hosts, ?_, rfl,
    by decide, rfl, by decide⟩
  rw [getStats, List.length_map]
  exact newMonitorStats_length hosts

theorem C10_witness :
    "b" ∈ (newMonitorStats ["a", "b", "a"]).map Prod.fst :=
  ((C10_registry_dedup ["a", "b", "a"]).2.1 "b").mpr (by decide)

end NetMonitor
